import Mathlib

/-!
Verification of the MIHCSME_OMERO well-metadata reconciliation and
synchronization engine (`src/original_scripts/src/omero_metadata_uploader.py`,
with the earlier library version `src/original_scripts/omero_metadata_uploader.py`
where noted).  The Python code is shallowly embedded: pandas `NaN` cells are
`Option.none`, Python dicts are insertion-ordered association lists, remote
OMERO calls are oracle functions, and exceptions raised by remote calls are
`Except.error` values consumed exactly where the Python `try/except` sits.
-/

namespace MIHCSME

/-! ### Python string primitives used by the source -/

/-- ASCII whitespace (codes 32, 9, 10, 13, 11, 12), the model of the
characters `str.strip` removes. -/
def pyIsSpace (c : Char) : Bool :=
  c.toNat = 32 || c.toNat = 9 || c.toNat = 10 || c.toNat = 13 ||
    c.toNat = 11 || c.toNat = 12

/-- Model of `str.upper` on one character (ASCII range `a`-`z`, codes
97-122, mapped down by 32). -/
def pyUpperChar (c : Char) : Char :=
  if 97 ≤ c.toNat && c.toNat ≤ 122 then Char.ofNat (c.toNat - 32) else c

/-- Model of `str.lower` on one character (ASCII range `A`-`Z`, codes
65-90, mapped up by 32). -/
def pyLowerChar (c : Char) : Char :=
  if 65 ≤ c.toNat && c.toNat ≤ 90 then Char.ofNat (c.toNat + 32) else c

/-- Remove the trailing run of whitespace characters. -/
def dropTrailingSpace : List Char → List Char
  | [] => []
  | c :: rest =>
    match dropTrailingSpace rest with
    | [] => if pyIsSpace c then [] else [c]
    | r :: rs => c :: r :: rs

/-- Model of Python `str.strip()`. -/
def pyStrip (s : String) : String := ⟨dropTrailingSpace (s.data.dropWhile pyIsSpace)⟩

/-- Model of Python `str.upper()`. -/
def pyUpper (s : String) : String := ⟨s.data.map pyUpperChar⟩

/-- Model of Python `str.lower()`. -/
def pyLower (s : String) : String := ⟨s.data.map pyLowerChar⟩

def listStartsWith : List Char → List Char → Bool
  | _, [] => true
  | [], _ :: _ => false
  | c :: cs, p :: ps => c = p && listStartsWith cs ps

/-- Model of Python `s.startswith(p)`. -/
def pyStartswith (s p : String) : Bool := listStartsWith s.data p.data

/-- ASCII decimal digit (codes 48-57). -/
def isAsciiDigit (c : Char) : Bool := 48 ≤ c.toNat && c.toNat ≤ 57

def digitVal (c : Char) : Nat := c.toNat - 48

/-- Value of a big-endian decimal digit list. -/
def digitsVal (l : List Char) : Nat := l.foldl (fun acc c => 10 * acc + digitVal c) 0

def decDigitChar (n : Nat) : Char := Char.ofNat (48 + n)

/-- Fuel-driven big-endian decimal rendering (structural recursion so that
the kernel can evaluate it). -/
def natDecGo : Nat → Nat → List Char → List Char
  | 0, _, acc => acc
  | fuel + 1, n, acc =>
    if n < 10 then decDigitChar n :: acc
    else natDecGo fuel (n / 10) (decDigitChar (n % 10) :: acc)

/-- Big-endian decimal rendering of a natural number. -/
def natDecRepr (n : Nat) : List Char := natDecGo (n + 1) n []

/-- A digit sequence as accepted by Python `int()`: nonempty, underscores
allowed only between digits. -/
def validUnderscoreDigits : List Char → Bool
  | [] => false
  | [c] => isAsciiDigit c
  | c :: c2 :: rest =>
    if !isAsciiDigit c then false
    else if c2 = '_' then
      match rest with
      | [] => false
      | _ :: _ => validUnderscoreDigits rest
    else validUnderscoreDigits (c2 :: rest)

/-- Sign-and-digits part of the `int()` model, after whitespace stripping. -/
def pyIntParseChars : List Char → Option Int
  | [] => none
  | c :: rest =>
    if c = '-' then
      if validUnderscoreDigits rest then
        some (-(digitsVal (rest.filter isAsciiDigit) : Int))
      else none
    else if c = '+' then
      if validUnderscoreDigits rest then
        some ((digitsVal (rest.filter isAsciiDigit) : Int))
      else none
    else
      if validUnderscoreDigits (c :: rest) then
        some ((digitsVal ((c :: rest).filter isAsciiDigit) : Int))
      else none

/-- Model of Python `int(s)` for a decimal string: surrounding whitespace and
one optional sign are allowed, then a digit sequence (underscores between
digits permitted). -/
def pyIntParse (s : String) : Option Int := pyIntParseChars (pyStrip s).data

/-- Model of the Python format expression `f"{n:02d}"`: zero-pad to total
width 2, padding inserted after the sign. -/
def pyFormat02 (n : Int) : String :=
  let mag := natDecRepr n.natAbs
  let signLen : Nat := if n < 0 then 1 else 0
  let zeros := List.replicate (2 - (signLen + mag.length)) '0'
  ⟨(if n < 0 then ['-'] else []) ++ zeros ++ mag⟩

/-! ### `normalize_well_name` (uploader lines 38-59) -/

/-- Split of the stripped, upper-cased token: rejected when shorter than two
characters, otherwise first character plus `int()`-parsed remainder. -/
def normalizeChars : List Char → Option String
  | [] => none
  | [_] => none
  | c :: c2 :: rest =>
    match pyIntParse ⟨c2 :: rest⟩ with
    | some n => some ⟨c :: (pyFormat02 n).data⟩
    | none => none

/-- Embedding of `normalize_well_name`: empty input is falsy and yields
`None`; otherwise the input is stripped and upper-cased, rejected when
shorter than two characters, split into first character and remainder, and
the remainder is parsed with `int()`; on success the result is the first
character followed by the zero-padded column number. -/
def normalize_well_name (well_name : String) : Option String :=
  if well_name = "" then none
  else normalizeChars (pyUpper (pyStrip well_name)).data


/-! ### `_remove_object_annotations` (uploader lines 1252-1300) -/

/-- One OMERO annotation as seen by the removal loop: an opaque id and an
optional namespace string (`None` modelled as `none`). -/
structure OmeroAnn where
  annId : Nat
  ns : Option String
deriving DecidableEq

/-- Python truthiness of an optional string (`None` and `""` are falsy). -/
def pyTruthyOptStr : Option String → Bool
  | none => false
  | some s => s ≠ ""

/-- Embedding of the filter loop of `_remove_object_annotations` with
`delete_annotations=True`: an annotation is skipped only when the namespace
argument is truthy, the annotation has a truthy namespace, and that
namespace does not start with the filter; every other annotation id is
collected for deletion. -/
def removalIds (nsFilter : Option String) (anns : List OmeroAnn) : List Nat :=
  (anns.filter (fun a =>
    match nsFilter with
    | none => true
    | some f =>
      if f = "" then true
      else
        match a.ns with
        | none => true
        | some annNs =>
          if annNs = "" then true
          else pyStartswith annNs f)).map (fun a => a.annId)

/-- Count returned by `_remove_object_annotations`. -/
def removalCount (nsFilter : Option String) (anns : List OmeroAnn) : Nat :=
  (removalIds nsFilter anns).length


/-! ### Python dicts as insertion-ordered association lists -/

/-- Python-dict update: an existing key keeps its position and gets the new
value, a new key is appended. -/
def dictInsert {α : Type} [DecidableEq α] {β : Type} (m : List (α × β)) (k : α) (v : β) :
    List (α × β) :=
  if m.any (fun p => p.1 = k) then
    m.map (fun p => if p.1 = k then (k, v) else p)
  else m ++ [(k, v)]

def dictGet {α : Type} [DecidableEq α] {β : Type} (m : List (α × β)) (k : α) : Option β :=
  (m.find? (fun p => p.1 = k)).map (fun p => p.2)

/-! ### `_apply_metadata_to_object` (uploader lines 838-892) -/

/-- A Python value inside a metadata dict: a scalar cell (`none` models a
pandas `NaN`) or a nested group dict. -/
inductive PyVal where
  | scalar (v : Option String)
  | dict (entries : List (String × Option String))
deriving DecidableEq

abbrev MetaDict := List (String × PyVal)

/-- One `ezomero.post_map_annotation` call that was issued. -/
structure WriteRec where
  objType : String
  objId : Nat
  ns : String
  kv : List (String × String)
deriving DecidableEq

/-- Oracle standing for `ezomero.post_map_annotation`: given object type,
object id and namespace it either raises (`Except.error`) or returns the
optional annotation id. -/
abbrev Oracle := String → Nat → String → Except String (Option Nat)

/-- How the Python code interprets one annotation write: a raised exception
is caught (and logged) and counts as failure; a falsy returned id (`None`,
or `0`) also counts as failure. -/
def writeCallOk (oracle : Oracle) (t : String) (i : Nat) (ns : String) : Bool :=
  match oracle t i ns with
  | .ok (some annId) => annId ≠ 0
  | .ok none => false
  | .error _ => false

/-- `{str(k): str(v) for k, v in d.items() if pd.notna(v)}` over scalar cells. -/
def notNaPairs (l : List (String × Option String)) : List (String × String) :=
  l.filterMap (fun kv => kv.2.map (fun v => (kv.1, v)))

/-- `any(isinstance(v, dict) for v in metadata_dict.values())`. -/
def hasDictValue (md : MetaDict) : Bool :=
  md.any (fun gv => match gv.2 with | .dict _ => true | .scalar _ => false)

/-- Embedding of `_apply_metadata_to_object`: falsy metadata is skipped with
success; a dict of dicts writes one annotation per non-empty group under
`ns/<group>`; a flat dict writes a single annotation under `ns`.  Returns the
success flag and the list of writes issued. -/
def applyMetadataToObject (oracle : Oracle) (objType : String) (objId : Nat)
    (metadata : Option MetaDict) (ns : String) : Bool × List WriteRec :=
  match metadata with
  | none => (true, [])
  | some md =>
    if md.isEmpty then (true, [])
    else if hasDictValue md then
      md.foldl (fun acc gv =>
        match gv.2 with
        | .dict gd =>
          let kv := notNaPairs gd
          if kv.isEmpty then acc
          else
            let gns := ns ++ "/" ++ gv.1
            (acc.1 && writeCallOk oracle objType objId gns,
             acc.2 ++ [⟨objType, objId, gns, kv⟩])
        | .scalar _ => acc) (true, [])
    else
      let kv := md.filterMap (fun gv =>
        match gv.2 with
        | .scalar (some v) => some (gv.1, v)
        | .scalar none => none
        | .dict _ => none)
      if kv.isEmpty then (true, [])
      else (writeCallOk oracle objType objId ns, [⟨objType, objId, ns, kv⟩])

/-! ### `_apply_assay_conditions_to_wells` (uploader lines 894-1018) -/

/-- One remote well: its 0-based grid coordinates and opaque id. -/
structure OmeroWell where
  row : Nat
  col : Nat
  wellId : Nat
deriving DecidableEq

/-- One row of the AssayConditions table: plate and well identifier (already
`astype(str)`-converted) plus the remaining condition columns (`none` models
a `NaN` cell). -/
structure CondRow where
  plate : String
  well : String
  conditions : List (String × Option String)
deriving DecidableEq

/-- The AssayConditions DataFrame: its rows plus whether the `Plate` and
`Well` columns exist (their absence triggers the KeyError / missing-column
early returns in the source). -/
structure CondTable where
  hasPlateCol : Bool
  hasWellCol : Bool
  rows : List CondRow
deriving DecidableEq

/-- `f"{chr(ord('A') + row)}{col + 1:02d}"` (uploader line 971). -/
def wellCoordName (row col : Nat) : String :=
  ⟨Char.ofNat (65 + row) :: (pyFormat02 ((col : Int) + 1)).data⟩

/-- `metadata_lookup` (uploader lines 925-933): rows filtered to this plate,
keyed by normalized well name (a later duplicate overwrites), value the
non-NaN condition cells minus the `Plate`/`Well` columns. -/
def buildMetadataLookup (rows : List CondRow) (plateIdent : String) :
    List (String × List (String × String)) :=
  (rows.filter (fun r => r.plate = plateIdent)).foldl (fun acc r =>
    match normalize_well_name r.well with
    | some nw =>
      dictInsert acc nw (notNaPairs (r.conditions.filter
        (fun kv => kv.1 ≠ "Plate" && kv.1 ≠ "Well")))
    | none => acc) []

/-- `omero_well_coords` (uploader lines 963-973): a dict keyed by the
`(row, col)` pair, valued by the well id and derived canonical name. -/
def buildWellCoords (wells : List OmeroWell) : List ((Nat × Nat) × (Nat × String)) :=
  wells.foldl (fun acc w =>
    dictInsert acc (w.row, w.col) (w.wellId, wellCoordName w.row w.col)) []

/-- Result of the per-well loop. -/
structure WellLoopRes where
  succ : Nat
  fail : Nat
  writes : List WriteRec
  processedNames : List String
deriving DecidableEq

/-- The per-well loop (uploader lines 978-1002): a matched well with empty
metadata counts as success without a write; a matched well with metadata is
written (failure when the write fails or raises); an unmatched remote well
counts as failure.  Every iteration runs regardless of earlier failures. -/
def wellLoop (oracle : Oracle) (ns : String)
    (lookup : List (String × List (String × String))) :
    List ((Nat × Nat) × (Nat × String)) → WellLoopRes
  | [] => ⟨0, 0, [], []⟩
  | item :: rest =>
    let rst := wellLoop oracle ns lookup rest
    let wellId := item.2.1
    let wellName := item.2.2
    match dictGet lookup wellName with
    | some wellMeta =>
      if wellMeta.isEmpty then
        ⟨rst.succ + 1, rst.fail, rst.writes, wellName :: rst.processedNames⟩
      else
        let md : MetaDict := wellMeta.map (fun kv => (kv.1, PyVal.scalar (some kv.2)))
        let r := applyMetadataToObject oracle "Well" wellId (some md) ns
        if r.1 then
          ⟨rst.succ + 1, rst.fail, r.2 ++ rst.writes, wellName :: rst.processedNames⟩
        else
          ⟨rst.succ, rst.fail + 1, r.2 ++ rst.writes, wellName :: rst.processedNames⟩
    | none => ⟨rst.succ, rst.fail + 1, rst.writes, wellName :: rst.processedNames⟩

/-- Counts and writes returned by `_apply_assay_conditions_to_wells`. -/
structure ApplyWellsRes where
  succ : Nat
  fail : Nat
  writes : List WriteRec
deriving DecidableEq

/-- Embedding of `_apply_assay_conditions_to_wells`.  `wells = none` models
`conn.getObject` returning `None` for the plate.  The early returns mirror
the source: missing `Plate` column (KeyError, caught) gives `(0, 0)`; no
metadata rows for this plate gives `(0, number of remote wells)`; missing
`Well` column likewise; unfetchable or empty plate gives
`(0, size of the metadata lookup)`.  Otherwise the per-well loop runs and
the wells present only in the metadata are added to the failure count. -/
def applyAssayConditionsToWells (oracle : Oracle) (plateIdent : String)
    (table : CondTable) (wells : Option (List OmeroWell)) (ns : String) : ApplyWellsRes :=
  if !table.hasPlateCol then ⟨0, 0, []⟩
  else
    let plateRows := table.rows.filter (fun r => r.plate = plateIdent)
    if plateRows.isEmpty then
      match wells with
      | some ws => ⟨0, ws.length, []⟩
      | none => ⟨0, 0, []⟩
    else if !table.hasWellCol then
      match wells with
      | some ws => ⟨0, ws.length, []⟩
      | none => ⟨0, 0, []⟩
    else
      let lookup := buildMetadataLookup table.rows plateIdent
      match wells with
      | none => ⟨0, lookup.length, []⟩
      | some ws =>
        if ws.isEmpty then ⟨0, lookup.length, []⟩
        else
          let coords := buildWellCoords ws
          let lr := wellLoop oracle ns lookup coords
          let extra := (lookup.map (fun p => p.1)).filter
            (fun k => !(lr.processedNames.contains k))
          ⟨lr.succ, lr.fail + extra.length, lr.writes⟩

/-! ### `annotate_omero_object` (uploader lines 1021-1145) -/

/-- One remote plate under the target: id, display name and its wells
(`none` when the plate object cannot be fetched). -/
structure PlateObj where
  plateId : Nat
  name : String
  wells : Option (List OmeroWell)

/-- Outcome of the removal phase (`remove_screen_metadata` /
`remove_plate_metadata`): total count removed and accumulated errors. -/
structure RemovalResult where
  totalRemoved : Nat
  errors : List String

/-- The parsed metadata document as `annotate_omero_object` consumes it:
the three information regions (`none` models a missing key) and the
AssayConditions table (`none` models a missing, non-list or empty value). -/
structure MetadataJson where
  investigation : Option MetaDict
  study : Option MetaDict
  assay : Option MetaDict
  conditions : Option CondTable

/-- The summary dict returned by `annotate_omero_object`. -/
structure SyncSummary where
  status : String
  wellsProcessed : Nat
  wellsSucceeded : Nat
  wellsFailed : Nat
  removedAnnotations : Nat
deriving DecidableEq

/-- Embedding of `annotate_omero_object`.  `plates` is the resolved list of
plates under the target (`none` when the target object cannot be fetched);
`removal` is the outcome of the removal phase, consulted only when
`replace` is true.  Returns the summary and every annotation write issued. -/
def annotate_omero_object (oracle : Oracle) (removal : RemovalResult)
    (targetType : String) (targetId : Nat) (mj : MetadataJson)
    (plates : Option (List PlateObj)) (baseNs : String) (replace : Bool) :
    SyncSummary × List WriteRec :=
  if pyLower targetType ≠ "screen" && pyLower targetType ≠ "plate" then
    (⟨"error", 0, 0, 0, 0⟩, [])
  else
    let removed := if replace then removal.totalRemoved else 0
    if replace && !removal.errors.isEmpty then
      (⟨"error", 0, 0, 0, removed⟩, [])
    else
      let r1 := applyMetadataToObject oracle targetType targetId mj.investigation
        (baseNs ++ "/InvestigationInformation")
      let r2 := applyMetadataToObject oracle targetType targetId mj.study
        (baseNs ++ "/StudyInformation")
      let r3 := applyMetadataToObject oracle targetType targetId mj.assay
        (baseNs ++ "/AssayInformation")
      let processedOk := r1.1 && r2.1 && r3.1
      let objWrites := r1.2 ++ r2.2 ++ r3.2
      let nsConditions := baseNs ++ "/AssayConditions"
      let wellPart : Nat × Nat × List WriteRec :=
        match mj.conditions with
        | none => (0, 0, [])
        | some table =>
          let ps := plates.getD []
          if ps.isEmpty then (0, 0, [])
          else
            ps.foldl (fun acc p =>
              let r := applyAssayConditionsToWells oracle p.name table p.wells nsConditions
              (acc.1 + r.succ, acc.2.1 + r.fail, acc.2.2 ++ r.writes)) (0, 0, [])
      let status := if processedOk then "success" else "partial_success"
      (⟨status, wellPart.1 + wellPart.2.1, wellPart.1, wellPart.2.1, removed⟩,
       objWrites ++ wellPart.2.2)

/-! ### `convert_excel_to_json`, both versions -/

/-- A worksheet as a raw cell grid; `none` models an empty (`NaN`) cell. -/
abbrev Grid := List (List (Option String))

/-- Cell at column `i` of a row; positions past the end are `NaN`. -/
def cellAt (r : List (Option String)) (i : Nat) : Option String := (r.get? i).getD none

/-- `astype(str)` on one cell: pandas renders `NaN` as `"nan"`. -/
def cellStr : Option String → String
  | none => "nan"
  | some s => s

/-- Number of DataFrame columns for a sheet. -/
def gridWidth (g : Grid) : Nat := g.foldl (fun m r => max m r.length) 0

def requiredSheets : List String :=
  ["InvestigationInformation", "StudyInformation", "AssayInformation", "AssayConditions"]

/-- Values held by the dict the original-library `convert_excel_to_json`
returns: the conditions records, or a key-value information sheet (keys may
be `NaN`, hence `Option String`). -/
inductive OldSheetVal where
  | conds (records : List (List (String × Option String)))
  | kv (entries : List (Option String × String))
deriving DecidableEq

/-- Key-value sheet parse of the original library version (read with
`header=None, index_col=0, usecols=[0, 1]`, then `df[1].dropna().to_dict()`):
every row whose second cell is present contributes `col0 -> col1`, later
duplicate keys overwriting. -/
def oldKvParse (g : Grid) : List (Option String × String) :=
  g.foldl (fun acc r =>
    match cellAt r 1 with
    | some v => dictInsert acc (cellAt r 0) v
    | none => acc) []

/-- AssayConditions records of the original library version: the first grid
row is the pandas header, every remaining row becomes one record keyed by
the non-`NaN` header names, `NaN` cells kept as `None`. -/
def oldCondRecords (g : Grid) : List (List (String × Option String)) :=
  let hdr := g.headD []
  (g.drop 1).map (fun r =>
    (List.range hdr.length).filterMap (fun i =>
      (cellAt hdr i).map (fun h => (h, cellAt r i))))

/-- Per-sheet loop of the original library `convert_excel_to_json`
(`src/original_scripts/omero_metadata_uploader.py` lines 151-172): reference
sheets are skipped, a conditions sheet without both `Plate` and `Well`
columns aborts the whole parse with `None`, unrecognized sheets are skipped. -/
def oldConvertSheets : List (String × Grid) → Option (List (String × OldSheetVal))
  | [] => some []
  | (name, g) :: rest =>
    if pyStartswith name "_" then oldConvertSheets rest
    else if name = "AssayConditions" then
      if (g.headD []).contains (some "Plate") && (g.headD []).contains (some "Well") then
        (oldConvertSheets rest).map (fun d => (name, OldSheetVal.conds (oldCondRecords g)) :: d)
      else none
    else if name = "InvestigationInformation" || name = "StudyInformation" ||
        name = "AssayInformation" then
      (oldConvertSheets rest).map (fun d => (name, OldSheetVal.kv (oldKvParse g)) :: d)
    else oldConvertSheets rest

/-- Embedding of the original library `convert_excel_to_json` (lines
127-179): checks the four required sheets up front and returns `None` when
any is missing, otherwise parses every sheet. -/
def convert_excel_to_json_v1 (wb : List (String × Grid)) :
    Option (List (String × OldSheetVal)) :=
  let names := wb.map (fun p => p.1)
  if requiredSheets.any (fun s => !names.contains s) then none
  else oldConvertSheets wb

/-- Values held by the dict the revised `convert_excel_to_json` (the
`src/` version) returns. -/
inductive JsonVal where
  | info (groups : List (String × List (String × Option String)))
  | conds (records : List (List (String × Option String)))
  | ref (entries : List (String × Option String))
deriving DecidableEq

/-- Information-sheet parse of the revised version (lines 700-739): the
first grid row is the pandas header, `#`-prefixed and group-less rows are
skipped, `Annotation_groups` rows are skipped, and each surviving row files
`(key, value)` under its group. -/
def newInfoParse (g : Grid) : List (String × List (String × Option String)) :=
  let w := gridWidth g
  let body := (g.drop 1).filter (fun r => !pyStartswith (cellStr (cellAt r 0)) "#")
  body.foldl (fun acc r =>
    match cellAt r 0 with
    | none => acc
    | some grp =>
      if grp = "Annotation_groups" || pyStartswith grp "#" then acc
      else if w > 2 then
        match cellAt r 1 with
        | none => acc
        | some key =>
          let inner := (dictGet acc grp).getD []
          dictInsert acc grp (dictInsert inner key (cellAt r 2))
      else acc) []

/-- AssayConditions parse of the revised version (lines 742-773): after
dropping `#`-prefixed rows from the body, the first remaining row is the
header; the rest become records over the non-`NaN` header columns. -/
def newCondParse (g : Grid) : List (List (String × Option String)) :=
  let w := gridWidth g
  let body := (g.drop 1).filter (fun r => !pyStartswith (cellStr (cellAt r 0)) "#")
  match body with
  | [] => []
  | hdr :: dataRows =>
    dataRows.map (fun r =>
      (List.range w).filterMap (fun i =>
        (cellAt hdr i).map (fun h => (h, cellAt r i))))

/-- Reference-sheet parse of the revised version (lines 778-833): drop
comment rows and all-`NaN` rows, take the first remaining row as header,
then map first column to second column for rows with a present key. -/
def newRefParse (g : Grid) : List (String × Option String) :=
  let w := gridWidth g
  let body := ((g.drop 1).filter (fun r => !pyStartswith (cellStr (cellAt r 0)) "#")).filter
    (fun r => !(r.filterMap (fun x => x)).isEmpty)
  match body with
  | [] => []
  | hdrRow :: dataRows =>
    if w < 2 then []
    else
      let _ := hdrRow
      dataRows.foldl (fun acc r =>
        match cellAt r 0 with
        | some k => dictInsert acc k (cellAt r 1)
        | none => acc) []

/-- Embedding of the revised `convert_excel_to_json`
(`src/original_scripts/src/omero_metadata_uploader.py` lines 677-835).
There is no required-sheet check: each of the three information sheets is
parsed if present, then the conditions sheet if present, then reference
sheets; missing sheets are simply absent from the result. -/
def convert_excel_to_json_v2 (wb : List (String × Grid)) : List (String × JsonVal) :=
  let infoPart := (["InvestigationInformation", "StudyInformation",
    "AssayInformation"].filterMap
    (fun sn => (dictGet wb sn).map (fun g => (sn, JsonVal.info (newInfoParse g)))))
  let condPart := match dictGet wb "AssayConditions" with
    | some g => [("AssayConditions", JsonVal.conds (newCondParse g))]
    | none => []
  let refPart := wb.filterMap (fun p =>
    if pyStartswith p.1 "_" then some (p.1, JsonVal.ref (newRefParse p.2)) else none)
  infoPart ++ condPart ++ refPart

/-! ### Supporting lemmas on the string primitives -/

theorem char_toNat_ofNat {m : Nat} (h : m < 55296) : (Char.ofNat m).toNat = m := by
  have hv : Nat.isValidChar m := Or.inl h
  rw [Char.ofNat, dif_pos hv]
  simp [Char.ofNatAux, Char.toNat, UInt32.toNat]

theorem digitVal_decDigitChar {d : Nat} (h : d < 10) : digitVal (decDigitChar d) = d := by
  unfold digitVal decDigitChar
  rw [char_toNat_ofNat (by omega)]
  omega

theorem isAsciiDigit_decDigitChar {d : Nat} (h : d < 10) :
    isAsciiDigit (decDigitChar d) = true := by
  unfold isAsciiDigit decDigitChar
  rw [char_toNat_ofNat (by omega)]
  simp
  omega

theorem digit_toNat_bounds {c : Char} (h : isAsciiDigit c = true) :
    48 ≤ c.toNat ∧ c.toNat ≤ 57 := by
  unfold isAsciiDigit at h
  simp at h
  omega

theorem digit_not_space {c : Char} (h : isAsciiDigit c = true) : pyIsSpace c = false := by
  obtain ⟨h1, h2⟩ := digit_toNat_bounds h
  unfold pyIsSpace
  simp
  omega

theorem digit_upper_fixed {c : Char} (h : isAsciiDigit c = true) : pyUpperChar c = c := by
  obtain ⟨h1, h2⟩ := digit_toNat_bounds h
  unfold pyUpperChar
  rw [if_neg]
  simp
  omega

theorem digit_ne_minus {c : Char} (h : isAsciiDigit c = true) : c ≠ '-' := by
  obtain ⟨h1, h2⟩ := digit_toNat_bounds h
  intro he
  subst he
  simp at h1 h2

theorem digit_ne_plus {c : Char} (h : isAsciiDigit c = true) : c ≠ '+' := by
  obtain ⟨h1, h2⟩ := digit_toNat_bounds h
  intro he
  subst he
  simp at h1 h2

theorem digit_ne_underscore {c : Char} (h : isAsciiDigit c = true) : c ≠ '_' := by
  obtain ⟨h1, h2⟩ := digit_toNat_bounds h
  intro he
  subst he
  simp at h1 h2

theorem pyUpperChar_idem (c : Char) : pyUpperChar (pyUpperChar c) = pyUpperChar c := by
  unfold pyUpperChar
  by_cases h : (97 ≤ c.toNat && c.toNat ≤ 122) = true
  · rw [if_pos h]
    have hb : 97 ≤ c.toNat ∧ c.toNat ≤ 122 := by simpa using h
    have ht : (Char.ofNat (c.toNat - 32)).toNat = c.toNat - 32 :=
      char_toNat_ofNat (by omega)
    rw [if_neg (by simp [ht]; omega)]
  · simp only [if_neg h]

theorem pyUpperChar_not_space {c : Char} (h : pyIsSpace c = false) :
    pyIsSpace (pyUpperChar c) = false := by
  unfold pyUpperChar
  by_cases hc : (97 ≤ c.toNat && c.toNat ≤ 122) = true
  · rw [if_pos hc]
    have hb : 97 ≤ c.toNat ∧ c.toNat ≤ 122 := by simpa using hc
    have ht : (Char.ofNat (c.toNat - 32)).toNat = c.toNat - 32 :=
      char_toNat_ofNat (by omega)
    unfold pyIsSpace
    simp [ht]
    omega
  · rw [if_neg hc]
    exact h

theorem head_dropWhile_not (p : Char → Bool) (l : List Char) (c : Char)
    (h : (l.dropWhile p).head? = some c) : p c = false := by
  induction l with
  | nil => simp [List.dropWhile] at h
  | cons a as ih =>
    rw [List.dropWhile] at h
    cases hpa : p a with
    | true =>
      rw [hpa] at h
      exact ih h
    | false =>
      rw [hpa] at h
      simp at h
      rw [← h]
      exact hpa

theorem head_dropTrailingSpace (l : List Char) (c : Char)
    (h : (dropTrailingSpace l).head? = some c) : l.head? = some c := by
  cases l with
  | nil => simp [dropTrailingSpace] at h
  | cons a as =>
    rw [dropTrailingSpace] at h
    cases hd : dropTrailingSpace as with
    | nil =>
      rw [hd] at h
      by_cases hs : pyIsSpace a
      · rw [if_pos hs] at h
        simp at h
      · rw [if_neg hs] at h
        simp at h
        simp [h]
    | cons r rs =>
      rw [hd] at h
      simp at h
      simp [h]

theorem dropTrailingSpace_of_all (l : List Char) (h : ∀ c ∈ l, pyIsSpace c = false) :
    dropTrailingSpace l = l := by
  induction l with
  | nil => rfl
  | cons a as ih =>
    have has : dropTrailingSpace as = as := ih (fun c hc => h c (List.mem_cons_of_mem a hc))
    rw [dropTrailingSpace, has]
    cases as with
    | nil => rw [if_neg (by rw [h a (List.mem_cons_self a [])]; simp)]
    | cons b bs => rfl

theorem natDecGo_mem (n : Nat) : ∀ fuel acc, n < fuel → ∀ c ∈ natDecGo fuel n acc,
    isAsciiDigit c = true ∨ c ∈ acc := by
  induction n using Nat.strong_induction_on with
  | _ n ih =>
    intro fuel acc hfuel c hc
    cases fuel with
    | zero => omega
    | succ fuel =>
      rw [natDecGo] at hc
      by_cases h10 : n < 10
      · rw [if_pos h10] at hc
        rcases List.mem_cons.mp hc with he | hm
        · exact Or.inl (he ▸ isAsciiDigit_decDigitChar h10)
        · exact Or.inr hm
      · rw [if_neg h10] at hc
        have hdiv : n / 10 < n := Nat.div_lt_self (by omega) (by omega)
        rcases ih (n / 10) hdiv fuel (decDigitChar (n % 10) :: acc) (by omega) c hc with
          hd | hm
        · exact Or.inl hd
        · rcases List.mem_cons.mp hm with he | hm2
          · exact Or.inl (he ▸ isAsciiDigit_decDigitChar (Nat.mod_lt n (by omega)))
          · exact Or.inr hm2

theorem natDecGo_val (n : Nat) : ∀ fuel acc, n < fuel →
    List.foldl (fun a c => 10 * a + digitVal c) 0 (natDecGo fuel n acc) =
      List.foldl (fun a c => 10 * a + digitVal c) n acc := by
  induction n using Nat.strong_induction_on with
  | _ n ih =>
    intro fuel acc hfuel
    cases fuel with
    | zero => omega
    | succ fuel =>
      rw [natDecGo]
      by_cases h10 : n < 10
      · rw [if_pos h10]
        rw [List.foldl_cons, digitVal_decDigitChar h10]
        norm_num
      · rw [if_neg h10]
        have hdiv : n / 10 < n := Nat.div_lt_self (by omega) (by omega)
        rw [ih (n / 10) hdiv fuel (decDigitChar (n % 10) :: acc) (by omega)]
        rw [List.foldl_cons, digitVal_decDigitChar (Nat.mod_lt n (by omega))]
        congr 1
        omega

theorem natDecGo_ne_nil (n : Nat) : ∀ fuel acc, n < fuel → natDecGo fuel n acc ≠ [] := by
  induction n using Nat.strong_induction_on with
  | _ n ih =>
    intro fuel acc hfuel
    cases fuel with
    | zero => omega
    | succ fuel =>
      rw [natDecGo]
      by_cases h10 : n < 10
      · rw [if_pos h10]
        simp
      · rw [if_neg h10]
        have hdiv : n / 10 < n := Nat.div_lt_self (by omega) (by omega)
        exact ih (n / 10) hdiv fuel (decDigitChar (n % 10) :: acc) (by omega)

theorem natDecRepr_digits {c : Char} {m : Nat} (h : c ∈ natDecRepr m) :
    isAsciiDigit c = true := by
  rcases natDecGo_mem m (m + 1) [] (by omega) c h with hd | hm
  · exact hd
  · simp at hm

theorem natDecRepr_val (m : Nat) : digitsVal (natDecRepr m) = m := by
  unfold digitsVal natDecRepr
  rw [natDecGo_val m (m + 1) [] (by omega)]
  rfl

theorem natDecRepr_ne_nil (m : Nat) : natDecRepr m ≠ [] :=
  natDecGo_ne_nil m (m + 1) [] (by omega)

theorem pyFormat02_data_nonneg (n : Int) (h : 0 ≤ n) :
    (pyFormat02 n).data =
      List.replicate (2 - (natDecRepr n.natAbs).length) '0' ++ natDecRepr n.natAbs := by
  unfold pyFormat02
  rw [if_neg (by omega), if_neg (by omega)]
  simp

theorem pyFormat02_data_neg (n : Int) (h : n < 0) :
    (pyFormat02 n).data = '-' :: natDecRepr n.natAbs := by
  unfold pyFormat02
  rw [if_pos h, if_pos h]
  have hl : 1 ≤ (natDecRepr n.natAbs).length :=
    List.length_pos.mpr (natDecRepr_ne_nil _)
  have hz : 2 - (1 + (natDecRepr n.natAbs).length) = 0 := by omega
  simp [hz]

theorem pyFormat02_chars {n : Int} {c : Char} (h : c ∈ (pyFormat02 n).data) :
    isAsciiDigit c = true ∨ c = '-' := by
  by_cases hn : n < 0
  · rw [pyFormat02_data_neg n hn] at h
    rcases List.mem_cons.mp h with he | hm
    · exact Or.inr he
    · exact Or.inl (natDecRepr_digits hm)
  · rw [pyFormat02_data_nonneg n (by omega)] at h
    rcases List.mem_append.mp h with hz | hm
    · rw [List.eq_of_mem_replicate hz]
      exact Or.inl (by decide)
    · exact Or.inl (natDecRepr_digits hm)

theorem pyFormat02_not_space {n : Int} {c : Char} (h : c ∈ (pyFormat02 n).data) :
    pyIsSpace c = false := by
  rcases pyFormat02_chars h with hd | he
  · exact digit_not_space hd
  · rw [he]
    decide

theorem pyFormat02_upper_fixed {n : Int} {c : Char} (h : c ∈ (pyFormat02 n).data) :
    pyUpperChar c = c := by
  rcases pyFormat02_chars h with hd | he
  · exact digit_upper_fixed hd
  · rw [he]
    decide

theorem pyFormat02_ne_nil (n : Int) : (pyFormat02 n).data ≠ [] := by
  by_cases hn : n < 0
  · rw [pyFormat02_data_neg n hn]
    simp
  · rw [pyFormat02_data_nonneg n (by omega)]
    simp [natDecRepr_ne_nil]

theorem validUnderscoreDigits_of_all (l : List Char) (hne : l ≠ [])
    (h : ∀ c ∈ l, isAsciiDigit c = true) : validUnderscoreDigits l = true := by
  induction l with
  | nil => simp at hne
  | cons a as ih =>
    cases as with
    | nil =>
      simp only [validUnderscoreDigits]
      exact h a (by simp)
    | cons b bs =>
      simp only [validUnderscoreDigits]
      have ha := h a (by simp)
      have hb := h b (by simp)
      rw [ha]
      simp only [Bool.not_true, Bool.false_eq_true, if_false]
      rw [if_neg (digit_ne_underscore hb)]
      exact ih (by simp) (fun c hc => h c (List.mem_cons_of_mem a hc))

theorem digitsVal_replicate_zero_append (k : Nat) (l : List Char) :
    digitsVal (List.replicate k '0' ++ l) = digitsVal l := by
  induction k with
  | zero => simp
  | succ k ih =>
    rw [List.replicate_succ, List.cons_append]
    unfold digitsVal
    rw [List.foldl_cons]
    have h0 : 10 * 0 + digitVal '0' = 0 := by decide
    rw [h0]
    exact ih

theorem pyStrip_of_all (s : String) (h : ∀ c ∈ s.data, pyIsSpace c = false) :
    pyStrip s = s := by
  unfold pyStrip
  have h1 : s.data.dropWhile pyIsSpace = s.data := by
    cases hd : s.data with
    | nil => simp
    | cons a as =>
      rw [List.dropWhile, h a (by rw [hd]; exact List.mem_cons_self a as)]
  rw [h1, dropTrailingSpace_of_all _ h]

theorem pyUpper_of_fixed (s : String) (h : ∀ c ∈ s.data, pyUpperChar c = c) :
    pyUpper s = s := by
  unfold pyUpper
  rw [List.map_congr_left h]
  rw [show (fun c : Char => c) = @id Char from rfl, List.map_id]

theorem pyIntParse_pyFormat02 (n : Int) : pyIntParse (pyFormat02 n) = some n := by
  unfold pyIntParse
  rw [pyStrip_of_all _ (fun c hc => pyFormat02_not_space hc)]
  by_cases hn : n < 0
  · rw [pyFormat02_data_neg n hn, pyIntParseChars]
    rw [if_pos rfl]
    rw [validUnderscoreDigits_of_all _ (natDecRepr_ne_nil _)
      (fun c hc => natDecRepr_digits hc)]
    rw [List.filter_eq_self.mpr (fun c hc => natDecRepr_digits hc)]
    rw [if_pos rfl]
    have hv := natDecRepr_val n.natAbs
    unfold digitsVal at hv ⊢
    rw [hv]
    congr 1
    omega
  · rw [pyFormat02_data_nonneg n (by omega)]
    have hall : ∀ c ∈ List.replicate (2 - (natDecRepr n.natAbs).length) '0' ++
        natDecRepr n.natAbs, isAsciiDigit c = true := by
      intro c hc
      rcases List.mem_append.mp hc with hz | hm
      · rw [List.eq_of_mem_replicate hz]
        decide
      · exact natDecRepr_digits hm
    cases hd : List.replicate (2 - (natDecRepr n.natAbs).length) '0' ++
        natDecRepr n.natAbs with
    | nil =>
      exact absurd (List.append_eq_nil.mp hd).2 (natDecRepr_ne_nil _)
    | cons a as =>
      rw [pyIntParseChars]
      have hda : isAsciiDigit a = true := hall a (by rw [hd]; simp)
      rw [if_neg (digit_ne_minus hda), if_neg (digit_ne_plus hda)]
      rw [validUnderscoreDigits_of_all (a :: as) (by simp)
        (fun c hc => hall c (by rw [hd]; exact hc))]
      rw [if_pos rfl]
      rw [List.filter_eq_self.mpr (fun c hc => hall c (by rw [hd]; exact hc))]
      rw [← hd, digitsVal_replicate_zero_append, natDecRepr_val]
      congr 1
      omega

theorem canonical_form_of_normalize {x c : String}
    (h : normalize_well_name x = some c) :
    ∃ (r : Char) (n : Int), c = ⟨r :: (pyFormat02 n).data⟩ ∧
      pyIsSpace r = false ∧ pyUpperChar r = r := by
  unfold normalize_well_name at h
  by_cases hx : x = ""
  · rw [if_pos hx] at h
    simp at h
  rw [if_neg hx] at h
  cases hdata : (pyUpper (pyStrip x)).data with
  | nil =>
    rw [hdata, normalizeChars] at h
    simp at h
  | cons r tl =>
    cases tl with
    | nil =>
      rw [hdata, normalizeChars] at h
      simp at h
    | cons c2 rest =>
      rw [hdata] at h
      rw [normalizeChars] at h
      cases hp : pyIntParse ⟨c2 :: rest⟩ with
      | none =>
        rw [hp] at h
        simp at h
      | some n =>
        rw [hp] at h
        simp at h
        refine ⟨r, n, h.symm, ?_, ?_⟩
        · have hmap : (pyStrip x).data.map pyUpperChar = r :: c2 :: rest := hdata
          cases hsd : (pyStrip x).data with
          | nil =>
            rw [hsd] at hmap
            simp at hmap
          | cons r0 t0 =>
            rw [hsd] at hmap
            simp at hmap
            have hhead : (dropTrailingSpace (x.data.dropWhile pyIsSpace)).head? = some r0 := by
              have : (pyStrip x).data = dropTrailingSpace (x.data.dropWhile pyIsSpace) := rfl
              rw [← this, hsd]
              rfl
            have hr0 : pyIsSpace r0 = false :=
              head_dropWhile_not pyIsSpace x.data r0 (head_dropTrailingSpace _ _ hhead)
            rw [← hmap.1]
            exact pyUpperChar_not_space hr0
        · have hmap : (pyStrip x).data.map pyUpperChar = r :: c2 :: rest := hdata
          cases hsd : (pyStrip x).data with
          | nil =>
            rw [hsd] at hmap
            simp at hmap
          | cons r0 t0 =>
            rw [hsd] at hmap
            simp at hmap
            rw [← hmap.1]
            exact pyUpperChar_idem r0

theorem normalize_canonical {r : Char} {n : Int} (hr : pyIsSpace r = false)
    (hu : pyUpperChar r = r) :
    normalize_well_name ⟨r :: (pyFormat02 n).data⟩ =
      some ⟨r :: (pyFormat02 n).data⟩ := by
  have hall_ns : ∀ ch ∈ (⟨r :: (pyFormat02 n).data⟩ : String).data,
      pyIsSpace ch = false := by
    intro ch hch
    rcases List.mem_cons.mp hch with he | hm
    · rw [he]
      exact hr
    · exact pyFormat02_not_space hm
  have hall_uf : ∀ ch ∈ (⟨r :: (pyFormat02 n).data⟩ : String).data,
      pyUpperChar ch = ch := by
    intro ch hch
    rcases List.mem_cons.mp hch with he | hm
    · rw [he]
      exact hu
    · exact pyFormat02_upper_fixed hm
  unfold normalize_well_name
  rw [if_neg (by
    intro he
    have := congrArg String.data he
    simp at this)]
  rw [pyStrip_of_all _ hall_ns, pyUpper_of_fixed _ hall_uf]
  cases hfd : (pyFormat02 n).data with
  | nil => exact absurd hfd (pyFormat02_ne_nil n)
  | cons f1 frest =>
    show normalizeChars (r :: f1 :: frest) = _
    rw [normalizeChars]
    have hps : (⟨f1 :: frest⟩ : String) = pyFormat02 n := by
      rw [← hfd]
    rw [hps, pyIntParse_pyFormat02 n]
    show some (⟨r :: (pyFormat02 n).data⟩ : String) = some ⟨r :: f1 :: frest⟩
    rw [hfd]

/-- **C5.** The well-name normalizer is idempotent: whenever normalization
succeeds, normalizing the canonical output returns that same canonical
string unchanged. -/
theorem claim_C5_normalize_idempotent (x c : String)
    (h : normalize_well_name x = some c) :
    normalize_well_name c = some c := by
  obtain ⟨r, n, hc, hr, hu⟩ := canonical_form_of_normalize h
  rw [hc]
  exact normalize_canonical hr hu

/-- Witness for C5 at the concrete input `"a1"` (canonical form `"A01"`). -/
theorem claim_C5_normalize_idempotent_witness :
    normalize_well_name "a1" = some "A01" ∧
      normalize_well_name "A01" = some "A01" :=
  ⟨by decide, claim_C5_normalize_idempotent "a1" "A01" (by decide)⟩

/-- The legacy script normalizer performs no row-letter or column-range
check: `"Z1"` and `"A50"` succeed rather than raising.  (The validating
normalizer the spec describes lives in the packaged `mihcsme_omero/models.py`,
modelled below as `specNormalize`.) -/
theorem normalize_well_name_no_range_check :
    normalize_well_name "Z1" = some "Z01" ∧ normalize_well_name "A50" = some "A50" := by
  decide

/-- The legacy script normalizer has a single failure mode (`None`): it
fails exactly when the input is empty, when the stripped upper-cased token
is shorter than two characters, or when the remainder after the first
character does not parse as an integer. -/
theorem normalize_well_name_failure_modes (s : String) :
    normalize_well_name s = none ↔
      (s = "" ∨ (pyUpper (pyStrip s)).data.length < 2 ∨
        pyIntParse ⟨(pyUpper (pyStrip s)).data.drop 1⟩ = none) := by
  unfold normalize_well_name
  by_cases hx : s = ""
  · rw [if_pos hx]
    simp [hx]
  · rw [if_neg hx]
    cases hdata : (pyUpper (pyStrip s)).data with
    | nil => simp [normalizeChars, hx]
    | cons a tl =>
      cases tl with
      | nil => simp [normalizeChars, hx]
      | cons b rest =>
        rw [normalizeChars]
        cases hp : pyIntParse ⟨b :: rest⟩ with
        | none => simp [hx, hp]
        | some n => simp [hx, hp]

/-- Error taxonomy of the packaged well validator (per `tests/test_models.py`:
"Invalid row letter" and "Invalid well format"). -/
inductive WellError where
  | InvalidRowLetter
  | InvalidWellFormat
deriving DecidableEq

instance : DecidableEq (Except WellError String) := fun a b =>
  match a, b with
  | .ok x, .ok y => decidable_of_iff (x = y) (by simp)
  | .error x, .error y => decidable_of_iff (x = y) (by simp)
  | .ok _, .error _ => isFalse (by simp)
  | .error _, .ok _ => isFalse (by simp)

/-- Validation split on the stripped upper-cased token: too-short tokens are
a format error; a first character outside A-P (codes 65-80) is a row-letter
error; a remainder that is longer than two characters, non-numeric, or
outside 1-48 is a format error; otherwise the canonical zero-padded form is
returned. -/
def specNormalizeChars : List Char → Except WellError String
  | [] => .error .InvalidWellFormat
  | [_] => .error .InvalidWellFormat
  | r :: c2 :: rest =>
    if 65 ≤ r.toNat ∧ r.toNat ≤ 80 then
      if (c2 :: rest).length ≤ 2 ∧ (c2 :: rest).all isAsciiDigit = true then
        if 1 ≤ digitsVal (c2 :: rest) ∧ digitsVal (c2 :: rest) ≤ 48 then
          .ok ⟨r :: (pyFormat02 ((digitsVal (c2 :: rest) : Nat) : Int)).data⟩
        else .error .InvalidWellFormat
      else .error .InvalidWellFormat
    else .error .InvalidRowLetter

/-- Modelled from the spec: the packaged well-name validator of
`mihcsme_omero/models.py`, which is absent from `src/` — only its tests
(`tests/test_models.py`) and the package re-export
(`src/mihcsme_omero/__init__.py`) are present.  Per the spec (§4.1) it
accepts a case-insensitive row letter A-P followed by a 1- or 2-digit
column number 1-48 and returns the canonical zero-padded form; it fails
with `InvalidRowLetter` when the row letter is outside A-P, and with
`InvalidWellFormat` when the token is too short, the remainder is not a
valid integer in 1-48, or extra characters remain — matching the tests:
`"Z1"` raises "Invalid row letter", `"A50"` and `"Invalid"` raise
"Invalid well format". -/
def specNormalize (raw : String) : Except WellError String :=
  specNormalizeChars (pyUpper (pyStrip raw)).data

/-- **C3.** The well-name validator fails with `InvalidRowLetter` for every
input whose row letter is outside A-P (e.g. `"Z1"`); it fails with
`InvalidWellFormat` for every input whose remainder is not a valid integer
in 1-48 (e.g. `"A50"`), whose token is too short, or which has extra
characters remaining (e.g. `"Invalid"`); it never returns a canonical form
for such inputs (the result is an error, never `.ok`). -/
theorem claim_C3_error_classification :
    (∀ (s : String) (r : Char) (rest : List Char),
      (pyUpper (pyStrip s)).data = r :: rest → rest ≠ [] →
      ¬(65 ≤ r.toNat ∧ r.toNat ≤ 80) →
      specNormalize s = .error .InvalidRowLetter) ∧
    (∀ (s : String) (r : Char) (rest : List Char),
      (pyUpper (pyStrip s)).data = r :: rest → rest ≠ [] →
      (65 ≤ r.toNat ∧ r.toNat ≤ 80) →
      (2 < rest.length ∨ rest.all isAsciiDigit = false ∨
        ¬(1 ≤ digitsVal rest ∧ digitsVal rest ≤ 48)) →
      specNormalize s = .error .InvalidWellFormat) ∧
    (∀ s : String, (pyUpper (pyStrip s)).data.length < 2 →
      specNormalize s = .error .InvalidWellFormat) ∧
    specNormalize "Z1" = .error .InvalidRowLetter ∧
    specNormalize "A50" = .error .InvalidWellFormat ∧
    specNormalize "Invalid" = .error .InvalidWellFormat := by
  refine ⟨?_, ?_, ?_, by decide, by decide, by decide⟩
  · intro s r rest hdata hne hout
    cases rest with
    | nil => exact absurd rfl hne
    | cons r2 rest2 =>
      unfold specNormalize
      rw [hdata, specNormalizeChars, if_neg hout]
  · intro s r rest hdata hne hin hbad
    cases rest with
    | nil => exact absurd rfl hne
    | cons r2 rest2 =>
      unfold specNormalize
      rw [hdata, specNormalizeChars, if_pos hin]
      rcases hbad with hlong | hnd | hrange
      · simp only [List.length_cons] at hlong
        rw [if_neg (by simp; omega)]
      · rw [if_neg (by simp [hnd])]
      · by_cases hok : (r2 :: rest2).length ≤ 2 ∧ (r2 :: rest2).all isAsciiDigit = true
        · rw [if_pos hok, if_neg hrange]
        · rw [if_neg hok]
  · intro s hlen
    unfold specNormalize
    cases hdata : (pyUpper (pyStrip s)).data with
    | nil => rw [specNormalizeChars]
    | cons a tl =>
      cases tl with
      | nil => rw [specNormalizeChars]
      | cons b tl2 =>
        rw [hdata] at hlen
        simp at hlen
        omega

/-- Witness for C3, applying the universal clauses at `"Z1"` and `"A50"`. -/
theorem claim_C3_error_classification_witness :
    specNormalize "Z1" = .error .InvalidRowLetter ∧
      specNormalize "A50" = .error .InvalidWellFormat :=
  ⟨claim_C3_error_classification.1 "Z1" 'Z' ['1'] (by decide) (by decide) (by decide),
   claim_C3_error_classification.2.1 "A50" 'A' ['5', '0'] (by decide) (by decide)
     (by decide) (by decide)⟩

def rowLetters : List Char :=
  ['A', 'B', 'C', 'D', 'E', 'F', 'G', 'H', 'I', 'J', 'K', 'L', 'M', 'N', 'O', 'P']

set_option maxHeartbeats 4000000 in
/-- **C4.** For every row letter A-P (upper or lower case) and every column
number 1-48, written with or without a leading zero, the normalizer returns
the canonical form: the upper-case letter followed by the two-digit
zero-padded column. -/
theorem claim_C4_valid_inputs :
    ∀ r ∈ rowLetters, ∀ n ∈ List.range' 1 48, ∀ rl ∈ [r, pyLowerChar r],
      ∀ ds ∈ [(⟨natDecRepr n⟩ : String), pyFormat02 (n : Int)],
      normalize_well_name ⟨rl :: ds.data⟩ =
        some ⟨r :: (pyFormat02 (n : Int)).data⟩ := by decide

/-- Witness for C4: `"a01"` normalizes to `"A01"` (and so, by the same
theorem, do `"A1"` and `"A01"`). -/
theorem claim_C4_valid_inputs_witness :
    normalize_well_name "a01" = some "A01" := by
  have h := claim_C4_valid_inputs 'A' (by decide) 1 (by decide) 'a' (by decide)
    "01" (by decide)
  have e1 : (⟨'a' :: ("01" : String).data⟩ : String) = "a01" := by decide
  have e2 : (⟨'A' :: (pyFormat02 ((1 : Nat) : Int)).data⟩ : String) = "A01" := by decide
  rw [e1, e2] at h
  exact h

/-! ### Matcher classification and concrete scenario -/

/-- Canonical names of the remote wells, derived from their coordinates
(uploader lines 963-975). -/
def omeroWellNames (wells : List OmeroWell) : List String :=
  (buildWellCoords wells).map (fun p => p.2.2)

/-- Canonical names present in the metadata lookup for one plate. -/
def metadataWellNames (rows : List CondRow) (plateIdent : String) : List String :=
  (buildMetadataLookup rows plateIdent).map (fun p => p.1)

/-- Wells present both remotely and in the metadata. -/
def matchedWells (wells : List OmeroWell) (rows : List CondRow)
    (plateIdent : String) : List String :=
  (omeroWellNames wells).filter
    (fun nm => (metadataWellNames rows plateIdent).contains nm)

/-- Wells present in the metadata but absent remotely. -/
def metadataOnlyWells (wells : List OmeroWell) (rows : List CondRow)
    (plateIdent : String) : List String :=
  (metadataWellNames rows plateIdent).filter
    (fun nm => !(omeroWellNames wells).contains nm)

/-- Wells present remotely but absent in the metadata. -/
def remoteOnlyWells (wells : List OmeroWell) (rows : List CondRow)
    (plateIdent : String) : List String :=
  (omeroWellNames wells).filter
    (fun nm => !(metadataWellNames rows plateIdent).contains nm)

/-- Remote plate "Plate1" with wells at (row 0, col 0) and (row 0, col 1). -/
def scenarioWells : List OmeroWell := [⟨0, 0, 100⟩, ⟨0, 1, 101⟩]

/-- Metadata conditions for plate "Plate1", wells A01 and B01, each with one
non-empty condition column. -/
def scenarioRows : List CondRow :=
  [⟨"Plate1", "A01", [("Compound", some "X")]⟩,
   ⟨"Plate1", "B01", [("Compound", some "Y")]⟩]

def scenarioTable : CondTable := ⟨true, true, scenarioRows⟩

def scenarioDoc : MetadataJson := ⟨none, none, none, some scenarioTable⟩

/-- Remote write oracle that always succeeds. -/
def okOracle : Oracle := fun _ _ _ => .ok (some 1)

/-- Remote write oracle that always raises. -/
def failOracle : Oracle := fun _ _ _ => .error "connection lost"

def noRemoval : RemovalResult := ⟨0, []⟩

/-! ### Claim theorems on the removal filter and the synchronizer -/

/-- **C1** (the code evaluated at the failing input): with the non-empty
namespace filter `"MIHCSME"`, `_remove_object_annotations` nevertheless
deletes the annotation whose namespace is `None` (id 1) and the one whose
namespace is the empty string (id 2) — the skip guard
`if ann_ns and not ann_ns.startswith(namespace)` never fires for a falsy
namespace — while correctly keeping `"OtherNamespace"` (id 3).  This
contradicts the claim (and the docstrings of `remove_screen_metadata` /
`remove_plate_metadata`: "only remove annotations with this namespace"). -/
theorem claim_C1_no_namespace_is_deleted :
    removalIds (some "MIHCSME")
      [⟨1, none⟩, ⟨2, some ""⟩, ⟨3, some "OtherNamespace"⟩] = [1, 2] := by decide

/-- **C2.** Deletion-filter scenario: with filter `"MIHCSME"` the removal
loop deletes exactly the annotations whose namespace starts with the
literal string `"MIHCSME"` — `"MIHCSME"`, `"MIHCSME/Study"`, and also
`"MIHCSME_OLD"` — and keeps `"OtherNamespace"`. -/
theorem claim_C2_deletion_filter_scenario :
    removalIds (some "MIHCSME")
      [⟨1, some "MIHCSME"⟩, ⟨2, some "MIHCSME/Study"⟩,
       ⟨3, some "MIHCSME_OLD"⟩, ⟨4, some "OtherNamespace"⟩] = [1, 2, 3] := by decide

/-- **C6.** Matcher/synchronizer scenario: remote plate "Plate1" has wells
A01 and A02, the metadata has conditions for A01 and B01; the classification
is matched = {A01}, metadata-only = {B01}, remote-only = {A02} (each
canonical name falls in exactly one of the three pairwise-disjoint lists),
and the synchronizer with `replace=False` reports wells_processed=3,
wells_succeeded=1, wells_failed=2. -/
theorem claim_C6_matcher_scenario :
    matchedWells scenarioWells scenarioRows "Plate1" = ["A01"] ∧
    metadataOnlyWells scenarioWells scenarioRows "Plate1" = ["B01"] ∧
    remoteOnlyWells scenarioWells scenarioRows "Plate1" = ["A02"] ∧
    (annotate_omero_object okOracle noRemoval "Plate" 7 scenarioDoc
        (some [⟨10, "Plate1", some scenarioWells⟩]) "MIHCSME" false).1 =
      ⟨"success", 3, 1, 2, 0⟩ := by decide

/-- **C9.** In every summary the synchronizer returns, `wells_processed`
equals `wells_succeeded + wells_failed`: the loop path sets it literally to
the sum, and every early-return path leaves all three at zero. -/
theorem claim_C9_processed_eq_sum (oracle : Oracle) (removal : RemovalResult)
    (targetType : String) (targetId : Nat) (mj : MetadataJson)
    (plates : Option (List PlateObj)) (baseNs : String) (replace : Bool) :
    (annotate_omero_object oracle removal targetType targetId mj plates baseNs
        replace).1.wellsProcessed =
      (annotate_omero_object oracle removal targetType targetId mj plates baseNs
        replace).1.wellsSucceeded +
      (annotate_omero_object oracle removal targetType targetId mj plates baseNs
        replace).1.wellsFailed := by
  unfold annotate_omero_object
  by_cases h1 : (pyLower targetType ≠ "screen" && pyLower targetType ≠ "plate") = true
  · rw [if_pos h1]
    rfl
  · rw [if_neg h1]
    by_cases h2 : (replace && !removal.errors.isEmpty) = true
    · simp only [if_pos h2]
    · simp only [if_neg h2]

/-- **C10.** With `replace=True` and a removal phase reporting errors, the
synchronizer returns immediately: status `"error"`, the removed-annotation
count from the removal phase, zero well counts, and no annotation writes at
all. -/
theorem claim_C10_replace_error_aborts (oracle : Oracle) (removal : RemovalResult)
    (targetType : String) (targetId : Nat) (mj : MetadataJson)
    (plates : Option (List PlateObj)) (baseNs : String)
    (hT : pyLower targetType = "screen" ∨ pyLower targetType = "plate")
    (hE : removal.errors ≠ []) :
    annotate_omero_object oracle removal targetType targetId mj plates baseNs true =
      (⟨"error", 0, 0, 0, removal.totalRemoved⟩, []) := by
  unfold annotate_omero_object
  have h1 : (pyLower targetType ≠ "screen" && pyLower targetType ≠ "plate") = false := by
    rcases hT with h | h <;> simp [h]
  rw [if_neg (by rw [h1]; simp)]
  rw [if_pos (by simp [hE])]
  rfl

/-- Witness for C10 at a concrete erroring removal phase. -/
theorem claim_C10_replace_error_aborts_witness :
    annotate_omero_object okOracle ⟨5, ["Screen 1 not found"]⟩ "Screen" 1
        ⟨none, none, none, none⟩ none "MIHCSME" true =
      (⟨"error", 0, 0, 0, 5⟩, []) :=
  claim_C10_replace_error_aborts okOracle ⟨5, ["Screen 1 not found"]⟩ "Screen" 1
    ⟨none, none, none, none⟩ none "MIHCSME" (Or.inl (by decide)) (by decide)

/-- Success predicate for one iteration of the per-well loop: the well must
be matched in the metadata lookup and either carry empty metadata or have
its annotation write succeed (`writeCallOk` maps a raised exception to
`false`, never letting it escape the iteration). -/
def wellStepSucceeds (oracle : Oracle) (ns : String)
    (lookup : List (String × List (String × String)))
    (item : (Nat × Nat) × (Nat × String)) : Bool :=
  match dictGet lookup item.2.2 with
  | some wellMeta =>
    wellMeta.isEmpty ||
      (applyMetadataToObject oracle "Well" item.2.1
        (some (wellMeta.map (fun kv => (kv.1, PyVal.scalar (some kv.2))))) ns).1
  | none => false

theorem wellLoop_counts (oracle : Oracle) (ns : String)
    (lookup : List (String × List (String × String)))
    (items : List ((Nat × Nat) × (Nat × String))) :
    (wellLoop oracle ns lookup items).succ =
        (items.filter (wellStepSucceeds oracle ns lookup)).length ∧
      (wellLoop oracle ns lookup items).fail =
        (items.filter (fun i => !wellStepSucceeds oracle ns lookup i)).length ∧
      (wellLoop oracle ns lookup items).processedNames =
        items.map (fun i => i.2.2) := by
  induction items with
  | nil => exact ⟨rfl, rfl, rfl⟩
  | cons item rest ih =>
    obtain ⟨ihs, ihf, ihp⟩ := ih
    rw [wellLoop, List.filter_cons, List.filter_cons, List.map_cons]
    cases hd : dictGet lookup item.2.2 with
    | none =>
      have hstep : wellStepSucceeds oracle ns lookup item = false := by
        unfold wellStepSucceeds
        rw [hd]
      simp [hstep, ihs, ihf, ihp]
    | some wellMeta =>
      by_cases he : wellMeta.isEmpty
      · have hstep : wellStepSucceeds oracle ns lookup item = true := by
          unfold wellStepSucceeds
          rw [hd]
          simp [he]
        simp [he, hstep, ihs, ihf, ihp]
      · by_cases hr : (applyMetadataToObject oracle "Well" item.2.1
            (some (wellMeta.map (fun kv => (kv.1, PyVal.scalar (some kv.2))))) ns).1 = true
        · have hstep : wellStepSucceeds oracle ns lookup item = true := by
            unfold wellStepSucceeds
            rw [hd]
            simp [hr]
          simp [he, hr, hstep, ihs, ihf, ihp]
        · have hstep : wellStepSucceeds oracle ns lookup item = false := by
            unfold wellStepSucceeds
            rw [hd]
            simp [he, hr]
          simp [he, hr, hstep, ihs, ihf, ihp]

theorem filter_length_partition (p : ((Nat × Nat) × (Nat × String)) → Bool)
    (l : List ((Nat × Nat) × (Nat × String))) :
    (l.filter p).length + (l.filter (fun i => !p i)).length = l.length := by
  induction l with
  | nil => rfl
  | cons a as ih =>
    rw [List.filter_cons, List.filter_cons]
    by_cases hp : p a
    · simp [hp, ← ih]
      omega
    · simp [hp, ← ih]
      omega

/-- **C7.** Full accounting of `_apply_assay_conditions_to_wells` on its
main path: the success count is the number of remote wells whose per-well
step succeeds, the failure count is the number of remote wells whose step
fails plus the metadata-only wells, and together the two counts cover every
remote well plus every metadata-only well — for every write oracle,
including one that raises on some or all wells.  A raised exception is
absorbed into `writeCallOk = false` (the `try/except` of
`_apply_metadata_to_object`), so the failing well is merely counted as a
failure and every remaining well is still processed; nothing aborts the
loop. -/
theorem claim_C7_write_error_never_aborts (oracle : Oracle) (plateIdent : String)
    (table : CondTable) (ws : List OmeroWell) (ns : String)
    (hp : table.hasPlateCol = true) (hw : table.hasWellCol = true)
    (hrows : (table.rows.filter (fun r => r.plate = plateIdent)).isEmpty = false)
    (hws : ws.isEmpty = false) :
    (applyAssayConditionsToWells oracle plateIdent table (some ws) ns).succ =
        ((buildWellCoords ws).filter
          (wellStepSucceeds oracle ns (buildMetadataLookup table.rows plateIdent))).length ∧
      (applyAssayConditionsToWells oracle plateIdent table (some ws) ns).fail =
        ((buildWellCoords ws).filter (fun i =>
          !wellStepSucceeds oracle ns (buildMetadataLookup table.rows plateIdent) i)).length
        + (((buildMetadataLookup table.rows plateIdent).map (fun q => q.1)).filter
            (fun k => !(((buildWellCoords ws).map (fun i => i.2.2)).contains k))).length ∧
      (applyAssayConditionsToWells oracle plateIdent table (some ws) ns).succ +
          (applyAssayConditionsToWells oracle plateIdent table (some ws) ns).fail =
        (buildWellCoords ws).length +
          (((buildMetadataLookup table.rows plateIdent).map (fun q => q.1)).filter
            (fun k => !(((buildWellCoords ws).map (fun i => i.2.2)).contains k))).length := by
  obtain ⟨hs, hf, hn⟩ := wellLoop_counts oracle ns
    (buildMetadataLookup table.rows plateIdent) (buildWellCoords ws)
  have happ : applyAssayConditionsToWells oracle plateIdent table (some ws) ns =
      ⟨(wellLoop oracle ns (buildMetadataLookup table.rows plateIdent)
          (buildWellCoords ws)).succ,
       (wellLoop oracle ns (buildMetadataLookup table.rows plateIdent)
          (buildWellCoords ws)).fail +
         (((buildMetadataLookup table.rows plateIdent).map (fun q => q.1)).filter
           (fun k => !((wellLoop oracle ns (buildMetadataLookup table.rows plateIdent)
             (buildWellCoords ws)).processedNames.contains k))).length,
       (wellLoop oracle ns (buildMetadataLookup table.rows plateIdent)
          (buildWellCoords ws)).writes⟩ := by
    unfold applyAssayConditionsToWells
    rw [hp]
    simp only [Bool.not_true, Bool.false_eq_true, if_false]
    rw [if_neg (by rw [hrows]; simp)]
    rw [hw]
    simp only [Bool.not_true, Bool.false_eq_true, if_false]
    rw [if_neg (by rw [hws]; simp)]
  rw [happ, hn]
  refine ⟨by simp [hs], by simp [hf], ?_⟩
  have hpart := filter_length_partition
    (wellStepSucceeds oracle ns (buildMetadataLookup table.rows plateIdent))
    (buildWellCoords ws)
  simp only [hs, hf]
  omega

/-- Witness for C7: the concrete scenario plate with an always-raising write
oracle.  The matched well A01 carries non-empty metadata, so its raising
write is counted as a failure, and the remaining wells are still counted. -/
theorem claim_C7_write_error_never_aborts_witness :
    (applyAssayConditionsToWells failOracle "Plate1" scenarioTable
        (some scenarioWells) "NS").succ =
        ((buildWellCoords scenarioWells).filter
          (wellStepSucceeds failOracle "NS"
            (buildMetadataLookup scenarioTable.rows "Plate1"))).length ∧
      (applyAssayConditionsToWells failOracle "Plate1" scenarioTable
          (some scenarioWells) "NS").fail =
        ((buildWellCoords scenarioWells).filter (fun i =>
          !wellStepSucceeds failOracle "NS"
            (buildMetadataLookup scenarioTable.rows "Plate1") i)).length
        + (((buildMetadataLookup scenarioTable.rows "Plate1").map (fun q => q.1)).filter
            (fun k => !(((buildWellCoords scenarioWells).map
              (fun i => i.2.2)).contains k))).length ∧
      (applyAssayConditionsToWells failOracle "Plate1" scenarioTable
          (some scenarioWells) "NS").succ +
          (applyAssayConditionsToWells failOracle "Plate1" scenarioTable
            (some scenarioWells) "NS").fail =
        (buildWellCoords scenarioWells).length +
          (((buildMetadataLookup scenarioTable.rows "Plate1").map (fun q => q.1)).filter
            (fun k => !(((buildWellCoords scenarioWells).map
              (fun i => i.2.2)).contains k))).length :=
  claim_C7_write_error_never_aborts failOracle "Plate1" scenarioTable scenarioWells "NS"
    (by decide) (by decide) (by decide) (by decide)

/-- A workbook missing the required `InvestigationInformation` and
`AssayInformation` regions but carrying the other two. -/
def wbMissingSheets : List (String × Grid) :=
  [("StudyInformation",
     [[some "Group", some "Key", some "Value"], [some "G", some "K", some "V"]]),
   ("AssayConditions",
     [[some "ignore"], [some "Plate", some "Well"], [some "P1", some "A01"]])]

/-- **C8 counterexample.** The claim says a workbook missing any required
region fails with a missing-required-sheet error and no document is
returned.  The revised `convert_excel_to_json`
(`src/original_scripts/src/omero_metadata_uploader.py`) performs no
required-sheet check at all: on a workbook missing
`InvestigationInformation` (and `AssayInformation`) it raises nothing and
returns a partial document holding exactly the regions that were present. -/
theorem claim_C8_counterexample :
    convert_excel_to_json_v2 wbMissingSheets =
      [("StudyInformation", JsonVal.info [("G", [("K", some "V")])]),
       ("AssayConditions",
         JsonVal.conds [[("Plate", some "P1"), ("Well", some "A01")]])] := by
  decide

/-- **C8 amended.** Only the original library version
(`src/original_scripts/omero_metadata_uploader.py`) is atomic: for every
workbook missing any of the four required sheets it returns `None` (no
partial document); the revised version returns a partial document instead,
its required-sheet checking living in the separate
`validate_mihcsme_file_structure`. -/
theorem claim_C8_amended_v1_atomic (wb : List (String × Grid))
    (h : ∃ s ∈ requiredSheets, s ∉ wb.map (fun p => p.1)) :
    convert_excel_to_json_v1 wb = none := by
  unfold convert_excel_to_json_v1
  obtain ⟨s, hs, hn⟩ := h
  rw [if_pos (List.any_eq_true.mpr ⟨s, hs, by simpa using hn⟩)]

/-- Witness for the amended C8 at the concrete partial workbook. -/
theorem claim_C8_amended_v1_atomic_witness :
    convert_excel_to_json_v1 wbMissingSheets = none :=
  claim_C8_amended_v1_atomic wbMissingSheets
    ⟨"InvestigationInformation", by decide, by decide⟩

end MIHCSME
